import Mathlib

/-!
# tiny-file-server: the request-logging decorator and the startup sequence

A shallow embedding of `serve.go`.

* `LoggingResponseWriter`, `NewLoggingResponseWriter`, the method set of
  `*LoggingResponseWriter` (`lrw`) and `Logger` are translated from the source.
* An `http.Handler` handed to `Logger` is an arbitrary Go program; it is embedded
  as an interaction tree (`Handler`) over the operations a handler can perform on
  the `http.ResponseWriter` it is given, plus process-level effects (writing to the
  process log, letting time pass, panicking).
* The writer behind the `http.ResponseWriter` interface value, the clock, the
  duration renderer and the operating system are external to the repository and
  are parameters of the development.  `netHTTP` is a concrete instance following
  the documented behaviour of the `net/http` server response.
-/

namespace Serve

/-! ## Data model -/

/-- Body bytes handed to `Write`. -/
abbrev Bytes := List Nat

/-- The header map `http.Header` (`map[string][]string`) as an association list. -/
abbrev HeaderMap := List (String × List String)

/-- The fields of `*http.Request` that `Logger` reads. -/
structure Request where
  Method : String
  RequestURI : String
  RemoteAddr : String
deriving DecidableEq

/-- Observable effects, in the order in which they happen.  The first four are
calls arriving at the real response writer, `Log` is a message handed to the
process-wide standard logger, `Enter`/`Leave` mark the call of
`inner.ServeHTTP` made by `Logger` and its normal return. -/
inductive Event where
  | WriteHeader (code : Int)
  | Write (b : Bytes)
  | Header
  | Flush
  | Log (msg : String)
  | Enter (r : Request)
  | Leave
deriving DecidableEq

/-- Result of one method call on a responder: the responder afterwards, the calls
that reached the real writer, and the returned value (`.error v` when the call
panicked with value `v`). -/
structure Step (ρ α : Type) where
  state : ρ
  calls : List Event
  result : Except String α

/-- An implementation of the interface `http.ResponseWriter` (`Header`, `Write`,
`WriteHeader`) on responder states `ρ`, together with what the dynamic type
offers beyond the interface: `Flush` is `some` exactly when the dynamic type has
a `Flush()` method, i.e. when a type assertion to `http.Flusher` succeeds.

`Header upd` is the call `Header()` followed by the caller's in-place update `upd`
of the returned map; the value returned is the map as it was handed out. -/
structure ResponseWriter (ρ : Type) where
  Header : (HeaderMap → HeaderMap) → ρ → Step ρ HeaderMap
  Write : Bytes → ρ → Step ρ (Nat × Option String)
  WriteHeader : Int → ρ → Step ρ Unit
  Flush : Option (ρ → Step ρ Unit)

/-- The transport-side implementation of a response writer on connection states
`σ` (supplied by `net/http`, not by this repository). -/
structure Conn (σ : Type) where
  header : σ → HeaderMap
  setHeader : HeaderMap → σ → σ
  write : Bytes → σ → σ × Except String (Nat × Option String)
  writeHeader : Int → σ → σ × Except String Unit
  flush : Option (σ → σ × Except String Unit)

/-- The real response writer `w` that the server passes to the outermost handler:
every method call on it is an observable event. -/
def real {σ : Type} (C : Conn σ) : ResponseWriter σ where
  Header := fun upd s => ⟨C.setHeader (upd (C.header s)) s, [Event.Header], .ok (C.header s)⟩
  Write := fun b s => ⟨(C.write b s).1, [Event.Write b], (C.write b s).2⟩
  WriteHeader := fun code s => ⟨(C.writeHeader code s).1, [Event.WriteHeader code], (C.writeHeader code s).2⟩
  Flush := C.flush.map (fun f s => ⟨(f s).1, [Event.Flush], (f s).2⟩)

/-! ## `LoggingResponseWriter` (serve.go, lines 13-28) -/

/-- The Go struct `LoggingResponseWriter`: the embedded `http.ResponseWriter` and
the captured `statusCode`. -/
structure LoggingResponseWriter (ρ : Type) where
  ResponseWriter : ρ
  statusCode : Int

/-- The constant `http.StatusOK`. -/
def StatusOK : Int := 200

/-- The Go function `NewLoggingResponseWriter`. -/
def NewLoggingResponseWriter {ρ : Type} (w : ρ) : LoggingResponseWriter ρ :=
  ⟨w, StatusOK⟩

/-- The Go method `(*LoggingResponseWriter).WriteHeader`: store the code, then call
`WriteHeader` of the embedded writer. -/
def LoggingResponseWriter.WriteHeader {ρ : Type} (R : Serve.ResponseWriter ρ) (code : Int)
    (lrw : LoggingResponseWriter ρ) : Step (LoggingResponseWriter ρ) Unit :=
  let lrw1 : LoggingResponseWriter ρ := { lrw with statusCode := code }
  let st := R.WriteHeader code lrw1.ResponseWriter
  ⟨{ lrw1 with ResponseWriter := st.state }, st.calls, st.result⟩

/-- The method `Header` of `*LoggingResponseWriter`, promoted from the embedded
interface field. -/
def LoggingResponseWriter.Header {ρ : Type} (R : Serve.ResponseWriter ρ) (upd : HeaderMap → HeaderMap)
    (lrw : LoggingResponseWriter ρ) : Step (LoggingResponseWriter ρ) HeaderMap :=
  let st := R.Header upd lrw.ResponseWriter
  ⟨{ lrw with ResponseWriter := st.state }, st.calls, st.result⟩

/-- The method `Write` of `*LoggingResponseWriter`, promoted from the embedded
interface field. -/
def LoggingResponseWriter.Write {ρ : Type} (R : Serve.ResponseWriter ρ) (b : Bytes)
    (lrw : LoggingResponseWriter ρ) : Step (LoggingResponseWriter ρ) (Nat × Option String) :=
  let st := R.Write b lrw.ResponseWriter
  ⟨{ lrw with ResponseWriter := st.state }, st.calls, st.result⟩

/-- The method set of `*LoggingResponseWriter` as an `http.ResponseWriter`.  The
embedded field has the interface type `http.ResponseWriter`, so exactly the three
interface methods are promoted (with `WriteHeader` overridden); there is no
`Flush` method whatever the embedded writer is. -/
def lrw {ρ : Type} (R : ResponseWriter ρ) : ResponseWriter (LoggingResponseWriter ρ) where
  Header := LoggingResponseWriter.Header R
  Write := LoggingResponseWriter.Write R
  WriteHeader := LoggingResponseWriter.WriteHeader R
  Flush := none

/-! ## Handlers -/

/-- The behaviour of `ServeHTTP(w, r)` of an arbitrary `http.Handler`, as the
tree of operations it performs.
* `ret`: return normally; `panic v`: panic with value `v`;
* `WriteHeader`, `Write`, `Header`: the interface methods called on `w`, the
  continuation receiving what the call returned;
* `AssertFlusher k`: `_, ok := w.(http.Flusher)`, continuing with `k ok`;
* `Flush k`: `w.(http.Flusher).Flush()`, which panics when the assertion fails;
* `Log msg k`: hand a message to the process-wide logger;
* `Tick d k`: `d` nanoseconds pass.
A panic raised by a method of `w` is not recovered by the handler. -/
inductive Handler where
  | ret : Handler
  | panic (v : String) : Handler
  | WriteHeader (code : Int) (k : Handler) : Handler
  | Write (b : Bytes) (k : Nat → Option String → Handler) : Handler
  | Header (upd : HeaderMap → HeaderMap) (k : HeaderMap → Handler) : Handler
  | AssertFlusher (k : Bool → Handler) : Handler
  | Flush (k : Handler) : Handler
  | Log (msg : String) (k : Handler) : Handler
  | Tick (d : Nat) (k : Handler) : Handler

/-- How a call ended. -/
inductive Outcome where
  | returned
  | panicked (v : String)
deriving DecidableEq

/-- What executing a handler body did: the responder afterwards, the effects in
order (`trace`), the method calls the handler made on the responder it was given,
in order (`made`), the clock reading at the end, and how it ended. -/
structure Exec (ρ : Type) where
  resp : ρ
  trace : List Event
  made : List Event
  clock : Int
  outcome : Outcome

/-- Put earlier effects and earlier calls in front of an execution. -/
def Exec.after {ρ : Type} (evs made : List Event) (e : Exec ρ) : Exec ρ :=
  { e with trace := evs ++ e.trace, made := made ++ e.made }

/-- The panic of a failed type assertion to `http.Flusher` (a
`runtime.TypeAssertionError`), by its text without the name of the dynamic type. -/
def notFlusher : String :=
  "interface conversion: responder is not http.Flusher: missing method Flush"

/-- Execute a handler body against the responder `w` (implementation `R`), starting
at clock reading `t`. -/
def exec {ρ : Type} (R : ResponseWriter ρ) : Handler → ρ → Int → Exec ρ
  | .ret, w, t => ⟨w, [], [], t, .returned⟩
  | .panic v, w, t => ⟨w, [], [], t, .panicked v⟩
  | .WriteHeader code k, w, t =>
    match (R.WriteHeader code w).result with
    | .error v =>
      ⟨(R.WriteHeader code w).state, (R.WriteHeader code w).calls, [Event.WriteHeader code], t,
        .panicked v⟩
    | .ok _ =>
      (exec R k (R.WriteHeader code w).state t).after (R.WriteHeader code w).calls
        [Event.WriteHeader code]
  | .Write b k, w, t =>
    match (R.Write b w).result with
    | .error v => ⟨(R.Write b w).state, (R.Write b w).calls, [Event.Write b], t, .panicked v⟩
    | .ok (n, err) =>
      (exec R (k n err) (R.Write b w).state t).after (R.Write b w).calls [Event.Write b]
  | .Header upd k, w, t =>
    match (R.Header upd w).result with
    | .error v => ⟨(R.Header upd w).state, (R.Header upd w).calls, [Event.Header], t, .panicked v⟩
    | .ok h => (exec R (k h) (R.Header upd w).state t).after (R.Header upd w).calls [Event.Header]
  | .AssertFlusher k, w, t => exec R (k R.Flush.isSome) w t
  | .Flush k, w, t =>
    match R.Flush with
    | none => ⟨w, [], [], t, .panicked notFlusher⟩
    | some f =>
      match (f w).result with
      | .error v => ⟨(f w).state, (f w).calls, [Event.Flush], t, .panicked v⟩
      | .ok _ => (exec R k (f w).state t).after (f w).calls [Event.Flush]
  | .Log msg k, w, t => (exec R k w t).after [Event.Log msg] []
  | .Tick d k, w, t => exec R k w (t + d)

/-- What one call of a handler did: the response writer afterwards, the effects in
order, the clock reading at the end, and how it ended. -/
structure Run (ρ : Type) where
  resp : ρ
  trace : List Event
  clock : Int
  outcome : Outcome

/-! ## `Logger` (serve.go, lines 30-47) -/

/-- An argument of a formatting call. -/
inductive Arg where
  | int (i : Int)
  | str (s : String)

/-- The part of `fmt.Sprintf` used by serve.go on the characters of the format:
`%d` prints an integer argument in decimal, `%s` prints a string argument as it
is, every other character is copied. -/
def SprintfChars : List Char → List Arg → List Char
  | '%' :: 'd' :: fmt, .int i :: args => (toString i).data ++ SprintfChars fmt args
  | '%' :: 's' :: fmt, .str s :: args => s.data ++ SprintfChars fmt args
  | c :: fmt, args => c :: SprintfChars fmt args
  | [], _ => []

/-- The formatting function `fmt.Sprintf` for the verbs `%d` and `%s`. -/
def Sprintf (format : String) (args : List Arg) : String :=
  ⟨SprintfChars format.data args⟩

/-- The message of the request log line, serve.go lines 38-45.  `render` is
`time.Duration.String`, which `%s` applies to the elapsed time. -/
def requestLine (render : Int → String) (statusCode : Int) (r : Request) (elapsed : Int) : String :=
  Sprintf "[%d] %s %s %s %s"
    [.int statusCode, .str r.Method, .str r.RequestURI, .str r.RemoteAddr, .str (render elapsed)]

/-- The handler returned by the Go function `Logger`, called with the response
writer `w` (implementation `R`) and the request `r` when the clock reads `now`.
There is no `defer` and no `recover`: when `inner.ServeHTTP` panics the frame is
unwound at once. -/
def Logger {ρ : Type} (render : Int → String) (inner : Request → Handler)
    (R : ResponseWriter ρ) (w : ρ) (r : Request) (now : Int) : Run ρ :=
  let start := now
  let l := NewLoggingResponseWriter w
  let run := exec (lrw R) (inner r) l start
  match run.outcome with
  | .panicked v => ⟨run.resp.ResponseWriter, Event.Enter r :: run.trace, run.clock, .panicked v⟩
  | .returned =>
    ⟨run.resp.ResponseWriter,
      Event.Enter r :: run.trace ++
        [Event.Leave, Event.Log (requestLine render run.resp.statusCode r (run.clock - start))],
      run.clock, .returned⟩

/-- The responder state of `Logger` when `inner.ServeHTTP` is over (the value of
`*lrw` read by `log.Printf`). -/
def Logger.captured {ρ : Type} (inner : Request → Handler)
    (R : ResponseWriter ρ) (w : ρ) (r : Request) (now : Int) : LoggingResponseWriter ρ :=
  (exec (lrw R) (inner r) (NewLoggingResponseWriter w) now).resp

/-! ## The `net/http` server response (external) -/

/-- State of the server-side response behind the `http.ResponseWriter` that
`net/http` passes to a handler: whether the status line was committed, the
committed status, interim (1xx) responses sent, the header map, the body bytes
accepted by `Write` and the number of flushes. -/
structure Response where
  wroteHeader : Bool
  status : Int
  interim : List Int
  header : HeaderMap
  body : Bytes
  flushes : Nat
deriving DecidableEq

/-- A fresh response. -/
def Response.new : Response := ⟨false, 0, [], [], [], 0⟩

/-- The `WriteHeader` of `net/http`: a call after the header is written is
superfluous and ignored; a code outside 100..999 panics; a 1xx code other than 101
sends an interim response and leaves the final status open; any other code is
committed as the status of the response. -/
def Response.writeHeader (code : Int) (w : Response) : Response × Except String Unit :=
  if w.wroteHeader then (w, .ok ())
  else if code < 100 ∨ code > 999 then (w, .error ("invalid WriteHeader code " ++ toString code))
  else if 100 ≤ code ∧ code ≤ 199 ∧ code ≠ 101 then ({ w with interim := w.interim ++ [code] }, .ok ())
  else ({ w with wroteHeader := true, status := code }, .ok ())

/-- The commit of status 200 that `Write` and `Flush` of `net/http` perform when
no header was written yet. -/
def Response.commit (w : Response) : Response :=
  if w.wroteHeader then w else { w with wroteHeader := true, status := 200 }

/-- The rule `bodyAllowedForStatus` of `net/http`: a response with status 1xx, 204
or 304 carries no body. -/
def bodyAllowedForStatus (status : Int) : Bool :=
  !(decide (100 ≤ status ∧ status ≤ 199) || decide (status = 204) || decide (status = 304))

/-- The error `http.ErrBodyNotAllowed`, by its text. -/
def ErrBodyNotAllowed : String :=
  "http: request method or response status code does not allow body"

/-- The `Write` of `net/http`: commits status 200 if no header was written yet, then
hands the bytes to the transport.  `report` is what the transport answers for the
committed response and the bytes: how many bytes were accepted and the error, if
any. -/
def Response.writeWith (report : Response → Bytes → Nat × Option String) (b : Bytes)
    (w : Response) : Response × Except String (Nat × Option String) :=
  ({ w.commit with body := w.commit.body ++ b.take (report w.commit b).1 },
    .ok (report w.commit b))

/-- What `Write` of `net/http` answers on a healthy connection: an empty write
succeeds with 0 bytes, a body is refused with `ErrBodyNotAllowed` when the
committed status allows none, and all bytes are accepted otherwise. -/
def Response.report (w : Response) (b : Bytes) : Nat × Option String :=
  if b = [] then (0, none)
  else if bodyAllowedForStatus w.status then (b.length, none)
  else (0, some ErrBodyNotAllowed)

/-- The `Write` of `net/http` on a healthy connection. -/
def Response.write (b : Bytes) (w : Response) : Response × Except String (Nat × Option String) :=
  Response.writeWith Response.report b w

/-- The `Flush` of `net/http`: commits status 200 if no header was written yet. -/
def Response.flush (w : Response) : Response × Except String Unit :=
  ({ w.commit with flushes := w.commit.flushes + 1 }, .ok ())

/-- The status line the client receives once the handler has returned: the
committed status, or 200 when the handler committed none. -/
def Response.sentStatus (w : Response) : Int :=
  if w.wroteHeader then w.status else 200

/-- The response writer of `net/http` over a transport that answers writes by
`report`; its dynamic type implements `http.Flusher`. -/
def netHTTPWith (report : Response → Bytes → Nat × Option String) : Conn Response where
  header := fun w => w.header
  setHeader := fun h w => { w with header := h }
  write := Response.writeWith report
  writeHeader := Response.writeHeader
  flush := some Response.flush

/-- The response writer of `net/http` on a healthy connection. -/
def netHTTP : Conn Response := netHTTPWith Response.report

/-! ## Vocabulary of the properties -/

/-- The events that are method calls on a response writer. -/
def Event.isCall : Event → Bool
  | .WriteHeader _ => true
  | .Write _ => true
  | .Header => true
  | .Flush => true
  | _ => false

/-- The log messages among a list of events. -/
def logged : List Event → List String
  | [] => []
  | .Log msg :: evs => msg :: logged evs
  | _ :: evs => logged evs

/-- The codes of the `WriteHeader` calls among a list of events. -/
def headerCodes : List Event → List Int
  | [] => []
  | .WriteHeader code :: evs => code :: headerCodes evs
  | _ :: evs => headerCodes evs

/-- The number of times `inner.ServeHTTP` was entered. -/
def entries : List Event → Nat
  | [] => 0
  | .Enter _ :: evs => entries evs + 1
  | _ :: evs => entries evs

/-- The handler touches its responder only through the three methods of
`http.ResponseWriter`: it makes no type assertion on it. -/
def Handler.InterfaceOnly : Handler → Prop
  | .ret => True
  | .panic _ => True
  | .WriteHeader _ k => k.InterfaceOnly
  | .Write _ k => ∀ n err, (k n err).InterfaceOnly
  | .Header _ k => ∀ h, (k h).InterfaceOnly
  | .AssertFlusher _ => False
  | .Flush _ => False
  | .Log _ k => k.InterfaceOnly
  | .Tick _ k => k.InterfaceOnly

/-- An informational status code that `net/http` sends as an interim response. -/
def interim (code : Int) : Prop := 100 ≤ code ∧ code ≤ 199 ∧ code ≠ 101

instance (code : Int) : Decidable (interim code) := by
  unfold interim; infer_instance

/-- A status code that `WriteHeader` of `net/http` accepts and commits as the
status of the response: in 100..999 and not interim. -/
def finalCode (code : Int) : Prop := 100 ≤ code ∧ code ≤ 999 ∧ ¬ interim code

instance (code : Int) : Decidable (finalCode code) := by
  unfold finalCode; infer_instance

/-- The calls made on a responder set the status at most once: there is at most
one `WriteHeader` call among them, its code is a `finalCode`, and no `Write` call
precedes it. -/
def statusSetOnce : List Event → Bool
  | [] => true
  | .WriteHeader code :: evs => decide (finalCode code) && (headerCodes evs).isEmpty
  | .Write _ :: evs => (headerCodes evs).isEmpty
  | _ :: evs => statusSetOnce evs

/-! ## `main` (serve.go, lines 49-76) -/

/-- The values given on the command line; `none` for a flag that is absent. -/
structure Flags where
  addr : Option String
  port : Option Int
  dir : Option String

/-- The environment of the process, external to the repository.
* `Getwd`: the result of `os.Getwd`;
* `Args`: the result of `flag.Parse` on the command line, either the flag values
  or the exit status with which `flag.Parse` ends the process;
* `Abs`: `filepath.Abs`;
* `isDir`: whether a path names an existing directory;
* `ListenAndServe`: `none` when the call serves without returning, `some none` when
  it returns `nil`, `some (some err)` when it returns the error `err`. -/
structure OS where
  Getwd : Except String String
  Args : Except Nat Flags
  Abs : String → Except String String
  isDir : String → Bool
  ListenAndServe : String → Option (Option String)

/-- The effects of `main`, in order. -/
inductive Startup where
  | Handle (pattern : String)
  | Log (msg : String)
  | ListenAndServe (addr : String)
deriving DecidableEq

/-- How `main` ends: `fatal err` is `log.Fatal(err)` (the error is logged and the
process exits with status 1), `exit code` is an exit inside `flag.Parse`,
`returned` is a normal return of `main`, `serving` is a server that keeps
serving. -/
inductive Ending where
  | fatal (err : String)
  | exit (code : Nat)
  | returned
  | serving
deriving DecidableEq

/-- The effects and the ending of one start of the process. -/
structure Started where
  trace : List Startup
  ending : Ending
deriving DecidableEq

/-- The Go function `main`. -/
def main (os : OS) : Started :=
  match os.Getwd with
  | .error err => ⟨[], .fatal err⟩
  | .ok wd =>
    match os.Args with
    | .error code => ⟨[], .exit code⟩
    | .ok flags =>
      let addr := flags.addr.getD ""
      let port := flags.port.getD 8000
      let dir := flags.dir.getD wd
      match os.Abs dir with
      | .error err => ⟨[], .fatal err⟩
      | .ok absDir =>
        let line := Sprintf "Serving %s on HTTP %s:%d\n" [.str absDir, .str addr, .int port]
        let listen := Sprintf "%s:%d" [.str addr, .int port]
        let trace := [Startup.Handle "/", Startup.Log line, Startup.ListenAndServe listen]
        match os.ListenAndServe listen with
        | none => ⟨trace, .serving⟩
        | some none => ⟨trace, .returned⟩
        | some (some err) => ⟨trace, .fatal err⟩

/-- The directory `main` serves, `*dir`: the `-dir` flag, by default the working
directory. -/
def OS.dir (os : OS) : Option String :=
  match os.Getwd, os.Args with
  | .ok wd, .ok flags => some (flags.dir.getD wd)
  | _, _ => none

/-- The address string `main` hands to `http.ListenAndServe`. -/
def OS.listenAddr (os : OS) : Option String :=
  match os.Args with
  | .ok flags => some (flags.addr.getD "" ++ ":" ++ toString (flags.port.getD 8000))
  | _ => none

/-- The call of `os.Getwd` fails. -/
def OS.GetwdFails (os : OS) : Prop := ∃ err, os.Getwd = .error err

/-- The call of `filepath.Abs` on the configured directory fails. -/
def OS.AbsFails (os : OS) : Prop := ∃ dir err, os.dir = some dir ∧ os.Abs dir = .error err

/-- The call of `http.ListenAndServe` is reached and returns an error. -/
def OS.ListenFails (os : OS) : Prop :=
  ∃ dir absDir a err, os.dir = some dir ∧ os.Abs dir = .ok absDir ∧ os.listenAddr = some a ∧
    os.ListenAndServe a = some (some err)

/-- An execution against the wrapper, seen from the embedded writer. -/
def Exec.underlying {ρ : Type} (e : Exec (LoggingResponseWriter ρ)) : Exec ρ :=
  ⟨e.resp.ResponseWriter, e.trace, e.made, e.clock, e.outcome⟩

/-! ## Sample inputs -/

/-- A duration renderer for the sample runs: the nanoseconds in decimal, then `ns`. -/
def renderNs (d : Int) : String := toString d ++ "ns"

/-- A sample request. -/
def sampleRequest : Request := ⟨"GET", "/index.html?v=1", "10.0.0.1:5000"⟩

/-- A handler that calls `WriteHeader(404)` and then `WriteHeader(500)`. -/
def twice (_ : Request) : Handler :=
  .WriteHeader 404 (.WriteHeader 500 .ret)

/-- A handler that writes body bytes and then calls `WriteHeader(500)`. -/
def late (_ : Request) : Handler :=
  .Write [111, 107] (fun _ _ => .WriteHeader 500 .ret)

/-- A handler that answers 404 with a short body, taking 1500 ns. -/
def notFound (_ : Request) : Handler :=
  .Header (fun h => ("Content-Type", ["text/plain"]) :: h)
    (fun _ => .WriteHeader 404 (.Tick 1500 (.Write [52, 48, 52] (fun _ _ => .ret))))

/-- A handler that only writes a body, taking 700 ns. -/
def plain (_ : Request) : Handler :=
  .Tick 700 (.Write [104, 105] (fun _ _ => .Log "served" .ret))

/-- A handler that streams when its responder is an `http.Flusher` and answers
500 otherwise. -/
def streamOrFail (_ : Request) : Handler :=
  .AssertFlusher (fun ok =>
    if ok then .Write [104, 105] (fun _ _ => .Flush .ret) else .WriteHeader 500 .ret)

/-- A handler that writes a body and answers 500 only when the write reports an
error. -/
def writeOrError (_ : Request) : Handler :=
  .Write [104, 105] (fun _ err => if err.isSome then .WriteHeader 500 .ret else .ret)

/-- A handler that panics after writing the header. -/
def failing (_ : Request) : Handler :=
  .WriteHeader 200 (.Log "about to fail" (.panic "boom"))

/-- A handler body that makes three `WriteHeader` calls among other calls. -/
def threeCodes : Handler :=
  .WriteHeader 301 (.Write [1] (fun _ _ => .WriteHeader 404 (.Header id (fun _ => .WriteHeader 500 .ret))))

/-- A start with `-dir /srv/missing`, a path that resolves (an absolute path is
resolved without looking at the file system) and names no directory; the port is
free. -/
def missingRoot : OS where
  Getwd := .ok "/home/user"
  Args := .ok ⟨none, none, some "/srv/missing"⟩
  Abs := fun p => if p.data.head? = some '/' then .ok p else .ok ("/home/user/" ++ p)
  isDir := fun p => p = "/home/user"
  ListenAndServe := fun _ => none

/-- A start with `-dir site -port 8080` from a working directory that is removed
right after `os.Getwd` answered: `filepath.Abs` cannot resolve the relative
path. -/
def unresolvable : OS where
  Getwd := .ok "/home/user/gone"
  Args := .ok ⟨none, some 8080, some "site"⟩
  Abs := fun p => if p.data.head? = some '/' then .ok p else .error "getwd: no such file or directory"
  isDir := fun _ => false
  ListenAndServe := fun _ => none

/-- A start with `-addr 127.0.0.1` on a port that is already in use. -/
def portInUse : OS where
  Getwd := .ok "/home/user"
  Args := .ok ⟨some "127.0.0.1", none, none⟩
  Abs := fun p => if p.data.head? = some '/' then .ok p else .ok ("/home/user/" ++ p)
  isDir := fun p => p = "/home/user"
  ListenAndServe := fun _ => some (some "listen tcp 127.0.0.1:8000: bind: address already in use")

/-! ## Lemmas -/

theorem requestLine_eq (render : Int → String) (statusCode : Int) (r : Request) (elapsed : Int) :
    requestLine render statusCode r elapsed =
      "[" ++ toString statusCode ++ "] " ++ r.Method ++ " " ++ r.RequestURI ++ " " ++
        r.RemoteAddr ++ " " ++ render elapsed := by
  apply String.ext
  simp [requestLine, Sprintf, SprintfChars]

theorem getLast?_getD_cons (a d : Int) (l : List Int) :
    (a :: l).getLast?.getD d = l.getLast?.getD a := by
  rw [List.getLast?_cons]
  cases l.getLast? <;> rfl

/-- The captured status after an execution against the wrapper is the code of the
last `WriteHeader` call the handler made, or the status held before when it
made none. -/
theorem exec_lrw_statusCode {ρ : Type} (R : ResponseWriter ρ) (h : Handler) :
    ∀ (l : LoggingResponseWriter ρ) (t : Int),
      (exec (lrw R) h l t).resp.statusCode =
        (headerCodes (exec (lrw R) h l t).made).getLast?.getD l.statusCode := by
  induction h with
  | ret => intro l t; simp [exec, headerCodes]
  | panic v => intro l t; simp [exec, headerCodes]
  | WriteHeader code k ih =>
    intro l t
    simp only [exec]
    cases hres : ((lrw R).WriteHeader code l).result with
    | error v => simp [headerCodes, lrw, LoggingResponseWriter.WriteHeader]
    | ok u =>
      simp only [Exec.after]
      rw [ih]
      simp [headerCodes, lrw, LoggingResponseWriter.WriteHeader, getLast?_getD_cons]
  | Write b k ih =>
    intro l t
    simp only [exec]
    cases hres : ((lrw R).Write b l).result with
    | error v => simp [headerCodes, lrw, LoggingResponseWriter.Write]
    | ok u =>
      simp only [Exec.after]
      rw [ih]
      simp [headerCodes, lrw, LoggingResponseWriter.Write]
  | Header upd k ih =>
    intro l t
    simp only [exec]
    cases hres : ((lrw R).Header upd l).result with
    | error v => simp [headerCodes, lrw, LoggingResponseWriter.Header]
    | ok u =>
      simp only [Exec.after]
      rw [ih]
      simp [headerCodes, lrw, LoggingResponseWriter.Header]
  | AssertFlusher k ih => intro l t; simp only [exec]; exact ih _ l t
  | Flush k ih => intro l t; simp [exec, lrw, headerCodes]
  | Log msg k ih => intro l t; simp only [exec, Exec.after]; rw [ih]; simp [headerCodes]
  | Tick d k ih => intro l t; simp only [exec]; exact ih l _

theorem lrw_WriteHeader {ρ : Type} (R : ResponseWriter ρ) :
    (lrw R).WriteHeader = LoggingResponseWriter.WriteHeader R := rfl

theorem lrw_Write {ρ : Type} (R : ResponseWriter ρ) :
    (lrw R).Write = LoggingResponseWriter.Write R := rfl

theorem lrw_Header {ρ : Type} (R : ResponseWriter ρ) :
    (lrw R).Header = LoggingResponseWriter.Header R := rfl

theorem lrw_Flush {ρ : Type} (R : ResponseWriter ρ) : (lrw R).Flush = none := rfl

theorem underlying_after {ρ : Type} (evs made : List Event) (e : Exec (LoggingResponseWriter ρ)) :
    (e.after evs made).underlying = e.underlying.after evs made := rfl

/-- What an execution against the wrapper does to the embedded writer, its
effects, its calls and its ending do not depend on the captured status it starts
with. -/
theorem exec_lrw_indep {ρ : Type} (R : ResponseWriter ρ) (h : Handler) :
    ∀ (w : ρ) (sc sc2 : Int) (t : Int),
      (exec (lrw R) h ⟨w, sc⟩ t).underlying = (exec (lrw R) h ⟨w, sc2⟩ t).underlying := by
  induction h with
  | ret => intro w sc sc2 t; rfl
  | panic v => intro w sc sc2 t; rfl
  | WriteHeader code k ih =>
    intro w sc sc2 t
    simp only [exec, lrw_WriteHeader, LoggingResponseWriter.WriteHeader]
  | Write b k ih =>
    intro w sc sc2 t
    simp only [exec, lrw_Write, LoggingResponseWriter.Write]
    cases hres : (R.Write b w).result with
    | error v => rfl
    | ok u => simp only [underlying_after]; rw [ih]
  | Header upd k ih =>
    intro w sc sc2 t
    simp only [exec, lrw_Header, LoggingResponseWriter.Header]
    cases hres : (R.Header upd w).result with
    | error v => rfl
    | ok u => simp only [underlying_after]; rw [ih]
  | AssertFlusher k ih => intro w sc sc2 t; simp only [exec]; exact ih _ w sc sc2 t
  | Flush k ih => intro w sc sc2 t; rfl
  | Log msg k ih => intro w sc sc2 t; simp only [exec, underlying_after]; rw [ih]
  | Tick d k ih => intro w sc sc2 t; simp only [exec]; exact ih w sc sc2 _

/-- A handler that makes no type assertion does through the wrapper exactly what
it does on the embedded writer directly. -/
theorem exec_lrw_transparent {ρ : Type} (R : ResponseWriter ρ) (h : Handler) :
    ∀ (w : ρ) (sc : Int) (t : Int), h.InterfaceOnly →
      (exec (lrw R) h ⟨w, sc⟩ t).underlying = exec R h w t := by
  induction h with
  | ret => intro w sc t _; rfl
  | panic v => intro w sc t _; rfl
  | WriteHeader code k ih =>
    intro w sc t hk
    simp only [exec, lrw_WriteHeader, LoggingResponseWriter.WriteHeader]
    cases hres : (R.WriteHeader code w).result with
    | error v => rfl
    | ok u => simp only [underlying_after]; rw [ih _ _ _ hk]
  | Write b k ih =>
    intro w sc t hk
    simp only [exec, lrw_Write, LoggingResponseWriter.Write]
    cases hres : (R.Write b w).result with
    | error v => rfl
    | ok u => simp only [underlying_after]; rw [ih _ _ _ _ _ (hk _ _)]
  | Header upd k ih =>
    intro w sc t hk
    simp only [exec, lrw_Header, LoggingResponseWriter.Header]
    cases hres : (R.Header upd w).result with
    | error v => rfl
    | ok u => simp only [underlying_after]; rw [ih _ _ _ _ (hk _)]
  | AssertFlusher k ih => intro w sc t hk; exact absurd hk (by simp [Handler.InterfaceOnly])
  | Flush k ih => intro w sc t hk; exact absurd hk (by simp [Handler.InterfaceOnly])
  | Log msg k ih => intro w sc t hk; simp only [exec, underlying_after]; rw [ih _ _ _ hk]
  | Tick d k ih => intro w sc t hk; simp only [exec]; exact ih w sc _ hk

theorem real_WriteHeader {σ : Type} (C : Conn σ) (code : Int) (w : σ) :
    (real C).WriteHeader code w =
      ⟨(C.writeHeader code w).1, [Event.WriteHeader code], (C.writeHeader code w).2⟩ := rfl

theorem real_Write {σ : Type} (C : Conn σ) (b : Bytes) (w : σ) :
    (real C).Write b w = ⟨(C.write b w).1, [Event.Write b], (C.write b w).2⟩ := rfl

theorem real_Header {σ : Type} (C : Conn σ) (upd : HeaderMap → HeaderMap) (w : σ) :
    (real C).Header upd w =
      ⟨C.setHeader (upd (C.header w)) w, [Event.Header], .ok (C.header w)⟩ := rfl

/-- Through the wrapper around the real writer, the calls that reach the real
writer are exactly the calls the handler made, in order, and no `Enter` mark is
produced. -/
theorem exec_lrw_real_calls {σ : Type} (C : Conn σ) (h : Handler) :
    ∀ (l : LoggingResponseWriter σ) (t : Int),
      (exec (lrw (real C)) h l t).trace.filter Event.isCall = (exec (lrw (real C)) h l t).made ∧
      entries (exec (lrw (real C)) h l t).trace = 0 ∧
      headerCodes (exec (lrw (real C)) h l t).trace = headerCodes (exec (lrw (real C)) h l t).made := by
  induction h with
  | ret => intro l t; simp [exec, entries, headerCodes]
  | panic v => intro l t; simp [exec, entries, headerCodes]
  | WriteHeader code k ih =>
    intro l t
    simp only [exec, lrw_WriteHeader, LoggingResponseWriter.WriteHeader, real_WriteHeader]
    cases hres : (C.writeHeader code l.ResponseWriter).2 with
    | error v => simp [Event.isCall, entries, headerCodes]
    | ok u =>
      have := ih ⟨(C.writeHeader code l.ResponseWriter).1, code⟩ t
      simp [Exec.after, Event.isCall, entries, headerCodes, this]
  | Write b k ih =>
    intro l t
    simp only [exec, lrw_Write, LoggingResponseWriter.Write, real_Write]
    cases hres : (C.write b l.ResponseWriter).2 with
    | error v => simp [Event.isCall, entries, headerCodes]
    | ok u =>
      have := ih u.1 u.2 ⟨(C.write b l.ResponseWriter).1, l.statusCode⟩ t
      simp [Exec.after, Event.isCall, entries, headerCodes, this]
  | Header upd k ih =>
    intro l t
    simp only [exec, lrw_Header, LoggingResponseWriter.Header, real_Header]
    have := ih (C.header l.ResponseWriter)
      ⟨C.setHeader (upd (C.header l.ResponseWriter)) l.ResponseWriter, l.statusCode⟩ t
    simp [Exec.after, Event.isCall, entries, headerCodes, this]
  | AssertFlusher k ih => intro l t; simp only [exec]; exact ih _ l t
  | Flush k ih => intro l t; simp [exec, lrw_Flush, entries, headerCodes]
  | Log msg k ih =>
    intro l t
    simp [exec, Exec.after, Event.isCall, entries, headerCodes, ih l t]
  | Tick d k ih => intro l t; simp only [exec]; exact ih l _

theorem sentStatus_writeWith (report : Response → Bytes → Nat × Option String) (b : Bytes)
    (w : Response) : (Response.writeWith report b w).1.sentStatus = w.sentStatus := by
  unfold Response.writeWith Response.commit Response.sentStatus
  by_cases hw : w.wroteHeader = true <;> simp [hw]

theorem writeHeader_finalCode (code : Int) (w : Response) (hw : w.wroteHeader = false)
    (hfinal : finalCode code) :
    Response.writeHeader code w = ({ w with wroteHeader := true, status := code }, .ok ()) := by
  obtain ⟨hlo, hhi, hni⟩ := hfinal
  have hw2 : ¬ (w.wroteHeader = true) := by simp [hw]
  have hbad : ¬ (code < 100 ∨ code > 999) := by omega
  have hni2 : ¬ (100 ≤ code ∧ code ≤ 199 ∧ code ≠ 101) := hni
  unfold Response.writeHeader
  rw [if_neg hw2, if_neg hbad, if_neg hni2]

/-- No method of the `net/http` writer panics on a call with a `finalCode` or on a
`Write`: the only panic of the writer is that of `WriteHeader` on a code outside
100..999. -/
theorem netHTTPWith_no_panic (report : Response → Bytes → Nat × Option String) (code : Int)
    (b : Bytes) (w : Response) (hfinal : finalCode code) :
    ((netHTTPWith report).writeHeader code w).2 = .ok () ∧
    ((netHTTPWith report).write b w).2 = .ok (report w.commit b) := by
  refine ⟨?_, rfl⟩
  show (Response.writeHeader code w).2 = .ok ()
  by_cases hw : w.wroteHeader = true
  · unfold Response.writeHeader; rw [if_pos hw]
  · have hw2 : w.wroteHeader = false := by simpa using hw
    rw [writeHeader_finalCode code w hw2 hfinal]

theorem isEmpty_eq_nil (l : List Int) (h : l.isEmpty = true) : l = [] := by
  cases l with
  | nil => rfl
  | cons a l => simp at h

/-- With `net/http` behind the wrapper: as long as the handler makes no
`WriteHeader` call, the status the client is sent does not change. -/
theorem exec_lrw_netHTTP_sentStatus (report : Response → Bytes → Nat × Option String)
    (h : Handler) :
    ∀ (l : LoggingResponseWriter Response) (t : Int),
      headerCodes (exec (lrw (real (netHTTPWith report))) h l t).made = [] →
      (exec (lrw (real (netHTTPWith report))) h l t).resp.ResponseWriter.sentStatus =
        l.ResponseWriter.sentStatus := by
  induction h with
  | ret => intro l t _; rfl
  | panic v => intro l t _; rfl
  | WriteHeader code k ih =>
    intro l t hm
    have hcodes := (exec_lrw_real_calls (netHTTPWith report) (.WriteHeader code k) l t).2.2
    rw [hm] at hcodes
    simp only [exec, lrw_WriteHeader, LoggingResponseWriter.WriteHeader, real_WriteHeader] at hcodes
    cases hres : ((netHTTPWith report).writeHeader code l.ResponseWriter).2 with
    | error v => rw [hres] at hcodes; simp [headerCodes] at hcodes
    | ok u => rw [hres] at hcodes; simp [Exec.after, headerCodes] at hcodes
  | Write b k ih =>
    intro l t hm
    have hm2 : headerCodes (exec (lrw (real (netHTTPWith report)))
        (k (report l.ResponseWriter.commit b).1 (report l.ResponseWriter.commit b).2)
        ⟨(Response.writeWith report b l.ResponseWriter).1, l.statusCode⟩ t).made = [] := hm
    show (exec (lrw (real (netHTTPWith report)))
        (k (report l.ResponseWriter.commit b).1 (report l.ResponseWriter.commit b).2)
        ⟨(Response.writeWith report b l.ResponseWriter).1, l.statusCode⟩
        t).resp.ResponseWriter.sentStatus = l.ResponseWriter.sentStatus
    rw [ih _ _ _ t hm2]
    exact sentStatus_writeWith report b l.ResponseWriter
  | Header upd k ih =>
    intro l t hm
    have hm2 : headerCodes (exec (lrw (real (netHTTPWith report))) (k l.ResponseWriter.header)
        ⟨{ l.ResponseWriter with header := upd l.ResponseWriter.header }, l.statusCode⟩
        t).made = [] := hm
    show (exec (lrw (real (netHTTPWith report))) (k l.ResponseWriter.header)
        ⟨{ l.ResponseWriter with header := upd l.ResponseWriter.header }, l.statusCode⟩
        t).resp.ResponseWriter.sentStatus = l.ResponseWriter.sentStatus
    rw [ih _ _ t hm2]
    rfl
  | AssertFlusher k ih => intro l t; exact ih _ l t
  | Flush k ih => intro l t _; rfl
  | Log msg k ih => intro l t hm; exact ih l t hm
  | Tick d k ih => intro l t; exact ih l _

/-- With `net/http` behind the wrapper, on a response whose header is not yet
written: when the calls the handler made set the status at most once, the captured
status is the status the client is sent, however the execution ends. -/
theorem exec_lrw_netHTTP_status (report : Response → Bytes → Nat × Option String)
    (h : Handler) :
    ∀ (w : Response) (t : Int), w.wroteHeader = false →
      statusSetOnce (exec (lrw (real (netHTTPWith report))) h ⟨w, StatusOK⟩ t).made = true →
      (exec (lrw (real (netHTTPWith report))) h ⟨w, StatusOK⟩ t).resp.statusCode =
        (exec (lrw (real (netHTTPWith report))) h ⟨w, StatusOK⟩ t).resp.ResponseWriter.sentStatus := by
  have hfresh200 : ∀ w : Response, w.wroteHeader = false → StatusOK = w.sentStatus := by
    intro w hw; simp [Response.sentStatus, hw, StatusOK]
  induction h with
  | ret => intro w t hw _; exact hfresh200 w hw
  | panic v => intro w t hw _; exact hfresh200 w hw
  | WriteHeader code k ih =>
    intro w t hw hm
    have hstep : Response.writeHeader code w =
        ({ w with wroteHeader := true, status := code }, .ok ()) → finalCode code →
        exec (lrw (real (netHTTPWith report))) (.WriteHeader code k) ⟨w, StatusOK⟩ t =
          (exec (lrw (real (netHTTPWith report))) k
            ⟨{ w with wroteHeader := true, status := code }, code⟩ t).after
            [Event.WriteHeader code] [Event.WriteHeader code] := by
      intro hwh _
      simp only [exec, lrw_WriteHeader, LoggingResponseWriter.WriteHeader, real_WriteHeader]
      have hconn : (netHTTPWith report).writeHeader code w = Response.writeHeader code w := rfl
      rw [hconn, hwh]
    have hfinal : finalCode code := by
      cases hres : ((netHTTPWith report).writeHeader code w).2 with
      | error v =>
        simp only [exec, lrw_WriteHeader, LoggingResponseWriter.WriteHeader, real_WriteHeader,
          hres, statusSetOnce, Bool.and_eq_true, decide_eq_true_eq] at hm
        exact hm.1
      | ok u =>
        simp only [exec, lrw_WriteHeader, LoggingResponseWriter.WriteHeader, real_WriteHeader,
          hres, Exec.after, List.singleton_append, statusSetOnce, Bool.and_eq_true,
          decide_eq_true_eq] at hm
        exact hm.1
    have hrun := hstep (writeHeader_finalCode code w hw hfinal) hfinal
    rw [hrun] at hm ⊢
    have hnone : headerCodes (exec (lrw (real (netHTTPWith report))) k
        ⟨{ w with wroteHeader := true, status := code }, code⟩ t).made = [] := by
      have hm2 : (decide (finalCode code) && (headerCodes (exec (lrw (real (netHTTPWith report))) k
          ⟨{ w with wroteHeader := true, status := code }, code⟩ t).made).isEmpty) = true := hm
      simp only [Bool.and_eq_true] at hm2
      exact isEmpty_eq_nil _ hm2.2
    show (exec (lrw (real (netHTTPWith report))) k
        ⟨{ w with wroteHeader := true, status := code }, code⟩ t).resp.statusCode =
      (exec (lrw (real (netHTTPWith report))) k
        ⟨{ w with wroteHeader := true, status := code }, code⟩ t).resp.ResponseWriter.sentStatus
    rw [exec_lrw_statusCode, hnone, exec_lrw_netHTTP_sentStatus report k _ t hnone]
    rfl
  | Write b k ih =>
    intro w t hw hm
    have hnone : headerCodes (exec (lrw (real (netHTTPWith report)))
        (k (report w.commit b).1 (report w.commit b).2)
        ⟨(Response.writeWith report b w).1, StatusOK⟩ t).made = [] := by
      have hm2 : (headerCodes (exec (lrw (real (netHTTPWith report)))
          (k (report w.commit b).1 (report w.commit b).2)
          ⟨(Response.writeWith report b w).1, StatusOK⟩ t).made).isEmpty = true := hm
      exact isEmpty_eq_nil _ hm2
    show (exec (lrw (real (netHTTPWith report)))
        (k (report w.commit b).1 (report w.commit b).2)
        ⟨(Response.writeWith report b w).1, StatusOK⟩ t).resp.statusCode =
      (exec (lrw (real (netHTTPWith report)))
        (k (report w.commit b).1 (report w.commit b).2)
        ⟨(Response.writeWith report b w).1, StatusOK⟩ t).resp.ResponseWriter.sentStatus
    rw [exec_lrw_statusCode, hnone, exec_lrw_netHTTP_sentStatus report _ _ t hnone]
    show StatusOK = (Response.writeWith report b w).1.sentStatus
    rw [sentStatus_writeWith]
    exact hfresh200 w hw
  | Header upd k ih =>
    intro w t hw hm
    exact ih w.header { w with header := upd w.header } t hw hm
  | AssertFlusher k ih => intro w t hw hm; exact ih _ w t hw hm
  | Flush k ih => intro w t hw _; exact hfresh200 w hw
  | Log msg k ih => intro w t hw hm; exact ih w t hw hm
  | Tick d k ih => intro w t hw hm; exact ih w _ hw hm

theorem Logger_returned {ρ : Type} (render : Int → String) (inner : Request → Handler)
    (R : ResponseWriter ρ) (w : ρ) (r : Request) (now : Int)
    (hret : (exec (lrw R) (inner r) (NewLoggingResponseWriter w) now).outcome = .returned) :
    Logger render inner R w r now =
      ⟨(exec (lrw R) (inner r) (NewLoggingResponseWriter w) now).resp.ResponseWriter,
        Event.Enter r :: (exec (lrw R) (inner r) (NewLoggingResponseWriter w) now).trace ++
          [Event.Leave, Event.Log (requestLine render
            (exec (lrw R) (inner r) (NewLoggingResponseWriter w) now).resp.statusCode r
            ((exec (lrw R) (inner r) (NewLoggingResponseWriter w) now).clock - now))],
        (exec (lrw R) (inner r) (NewLoggingResponseWriter w) now).clock, .returned⟩ := by
  unfold Logger
  simp only [hret]

theorem Logger_panicked {ρ : Type} (render : Int → String) (inner : Request → Handler)
    (R : ResponseWriter ρ) (w : ρ) (r : Request) (now : Int) (v : String)
    (hp : (exec (lrw R) (inner r) (NewLoggingResponseWriter w) now).outcome = .panicked v) :
    Logger render inner R w r now =
      ⟨(exec (lrw R) (inner r) (NewLoggingResponseWriter w) now).resp.ResponseWriter,
        Event.Enter r :: (exec (lrw R) (inner r) (NewLoggingResponseWriter w) now).trace,
        (exec (lrw R) (inner r) (NewLoggingResponseWriter w) now).clock, .panicked v⟩ := by
  unfold Logger
  simp only [hp]

theorem Logger_outcome {ρ : Type} (render : Int → String) (inner : Request → Handler)
    (R : ResponseWriter ρ) (w : ρ) (r : Request) (now : Int) :
    (Logger render inner R w r now).outcome =
      (exec (lrw R) (inner r) (NewLoggingResponseWriter w) now).outcome := by
  cases ho : (exec (lrw R) (inner r) (NewLoggingResponseWriter w) now).outcome with
  | returned => rw [Logger_returned render inner R w r now ho]
  | panicked v => rw [Logger_panicked render inner R w r now v ho]

theorem Logger_resp_clock {ρ : Type} (render : Int → String) (inner : Request → Handler)
    (R : ResponseWriter ρ) (w : ρ) (r : Request) (now : Int) :
    (Logger render inner R w r now).resp =
      (exec (lrw R) (inner r) (NewLoggingResponseWriter w) now).resp.ResponseWriter ∧
    (Logger render inner R w r now).clock =
      (exec (lrw R) (inner r) (NewLoggingResponseWriter w) now).clock := by
  cases ho : (exec (lrw R) (inner r) (NewLoggingResponseWriter w) now).outcome with
  | returned => rw [Logger_returned render inner R w r now ho]; exact ⟨rfl, rfl⟩
  | panicked v => rw [Logger_panicked render inner R w r now v ho]; exact ⟨rfl, rfl⟩

theorem getLast?_snoc2 (a b c : Event) (xs : List Event) :
    (a :: xs ++ [b, c]).getLast? = some c := by
  have hsplit : a :: xs ++ [b, c] = (a :: xs ++ [b]) ++ [c] := by simp
  rw [hsplit, List.getLast?_concat]

theorem Logger_last {ρ : Type} (render : Int → String) (inner : Request → Handler)
    (R : ResponseWriter ρ) (w : ρ) (r : Request) (now : Int)
    (hret : (Logger render inner R w r now).outcome = .returned) :
    (Logger render inner R w r now).trace.getLast? =
      some (Event.Log (requestLine render (Logger.captured inner R w r now).statusCode r
        ((Logger render inner R w r now).clock - now))) := by
  rw [Logger_outcome] at hret
  rw [Logger_returned render inner R w r now hret]
  simp only [Logger.captured]
  exact getLast?_snoc2 _ _ _ _

theorem filter_isCall_Logger {ρ : Type} (render : Int → String) (inner : Request → Handler)
    (R : ResponseWriter ρ) (w : ρ) (r : Request) (now : Int) :
    (Logger render inner R w r now).trace.filter Event.isCall =
      (exec (lrw R) (inner r) (NewLoggingResponseWriter w) now).trace.filter Event.isCall := by
  cases ho : (exec (lrw R) (inner r) (NewLoggingResponseWriter w) now).outcome with
  | returned => rw [Logger_returned render inner R w r now ho]; simp [Event.isCall]
  | panicked v => rw [Logger_panicked render inner R w r now v ho]; simp [Event.isCall]

theorem logged_append (xs ys : List Event) : logged (xs ++ ys) = logged xs ++ logged ys := by
  induction xs with
  | nil => rfl
  | cons x xs ih => cases x <;> simp [logged, ih]

theorem entries_append (xs ys : List Event) : entries (xs ++ ys) = entries xs + entries ys := by
  induction xs with
  | nil => simp [entries]
  | cons x xs ih => cases x <;> simp [entries, ih, Nat.add_right_comm]

theorem headerCodes_eq_nil (evs : List Event) (h : ∀ code, Event.WriteHeader code ∉ evs) :
    headerCodes evs = [] := by
  induction evs with
  | nil => rfl
  | cons x xs ih =>
    have hxs : ∀ code, Event.WriteHeader code ∉ xs := fun code hmem => h code (List.mem_cons_of_mem _ hmem)
    cases x with
    | WriteHeader code => exact absurd (List.mem_cons_self _ _) (h code)
    | _ => simpa [headerCodes] using ih hxs

theorem servingLine_eq (absDir addr : String) (port : Int) :
    Sprintf "Serving %s on HTTP %s:%d\n" [.str absDir, .str addr, .int port] =
      "Serving " ++ absDir ++ " on HTTP " ++ addr ++ ":" ++ toString port ++ "\n" := by
  apply String.ext
  simp [Sprintf, SprintfChars]

theorem listenAddr_eq (addr : String) (port : Int) :
    Sprintf "%s:%d" [.str addr, .int port] = addr ++ ":" ++ toString port := by
  apply String.ext
  simp [Sprintf, SprintfChars]

/-- The run of `main` once the working directory, the flags and the absolute
directory are known. -/
theorem main_of_abs (os : OS) (wd absDir : String) (flags : Flags)
    (hwd : os.Getwd = .ok wd) (hargs : os.Args = .ok flags)
    (habs : os.Abs (flags.dir.getD wd) = .ok absDir) :
    (main os).trace =
      [Startup.Handle "/",
        Startup.Log ("Serving " ++ absDir ++ " on HTTP " ++ flags.addr.getD "" ++ ":" ++
          toString (flags.port.getD 8000) ++ "\n"),
        Startup.ListenAndServe (flags.addr.getD "" ++ ":" ++ toString (flags.port.getD 8000))] ∧
    ((∃ err, (main os).ending = .fatal err) ↔
      ∃ err, os.ListenAndServe (flags.addr.getD "" ++ ":" ++ toString (flags.port.getD 8000)) =
        some (some err)) := by
  unfold main
  simp only [hwd, hargs, habs, servingLine_eq, listenAddr_eq]
  cases hl : os.ListenAndServe (flags.addr.getD "" ++ ":" ++ toString (flags.port.getD 8000)) with
  | none => simp
  | some res =>
    cases res with
    | none => simp
    | some err => simp

/-- The run of `main` when `filepath.Abs` fails on the configured directory. -/
theorem main_of_abs_error (os : OS) (dir err : String)
    (hdir : os.dir = some dir) (habs : os.Abs dir = .error err) :
    main os = ⟨[], .fatal err⟩ := by
  unfold OS.dir at hdir
  unfold main
  cases hwd : os.Getwd with
  | error e => simp [hwd] at hdir
  | ok wd =>
    cases hargs : os.Args with
    | error code => simp [hwd, hargs] at hdir
    | ok flags =>
      simp only [hwd, hargs, Option.some.injEq] at hdir
      simp only [hdir, habs]

/-! ## The claims -/

/-- C1, counterexample.  Served through `Logger` by `net/http`, the handler `twice`
(`WriteHeader(404)` then `WriteHeader(500)`) returns normally, the log line says
500 and the client was sent 404; the handler `late` (`Write` then
`WriteHeader(500)`) returns normally, the log line says 500 and the client was
sent 200. -/
theorem capture_fidelity_counterexample :
    ((Logger renderNs twice (real netHTTP) Response.new sampleRequest 0).outcome = .returned ∧
      (Logger renderNs twice (real netHTTP) Response.new sampleRequest 0).trace.getLast? =
        some (Event.Log "[500] GET /index.html?v=1 10.0.0.1:5000 0ns") ∧
      (Logger.captured twice (real netHTTP) Response.new sampleRequest 0).statusCode = 500 ∧
      (Logger renderNs twice (real netHTTP) Response.new sampleRequest 0).resp.sentStatus = 404) ∧
    ((Logger renderNs late (real netHTTP) Response.new sampleRequest 0).outcome = .returned ∧
      (Logger renderNs late (real netHTTP) Response.new sampleRequest 0).trace.getLast? =
        some (Event.Log "[500] GET /index.html?v=1 10.0.0.1:5000 0ns") ∧
      (Logger.captured late (real netHTTP) Response.new sampleRequest 0).statusCode = 500 ∧
      (Logger renderNs late (real netHTTP) Response.new sampleRequest 0).resp.sentStatus = 200) := by
  decide

/-- C1, amended.  Capture fidelity for handlers that set the status at most once:
when the calls the inner handler makes on the responder it is given contain at
most one `WriteHeader` call, with a code in 100..999 that is not an interim 1xx
code, and no `Write` before it, then on a fresh `net/http` response (whatever the
transport answers to writes) the captured status is the status sent to the
client, and when the handler returns normally the log line of `Logger` carries
that status.  The condition is on the calls made in the run, not on branches the
handler does not take; under it no method of the writer panics
(`netHTTPWith_no_panic`). -/
theorem capture_fidelity (report : Response → Bytes → Nat × Option String)
    (render : Int → String) (inner : Request → Handler) (r : Request)
    (now : Int) (w : Response) (hfresh : w.wroteHeader = false)
    (honce : statusSetOnce (exec (lrw (real (netHTTPWith report))) (inner r)
      (NewLoggingResponseWriter w) now).made = true) :
    (Logger.captured inner (real (netHTTPWith report)) w r now).statusCode =
      (Logger render inner (real (netHTTPWith report)) w r now).resp.sentStatus ∧
    ((Logger render inner (real (netHTTPWith report)) w r now).outcome = .returned →
      (Logger render inner (real (netHTTPWith report)) w r now).trace.getLast? =
        some (Event.Log (requestLine render
          (Logger render inner (real (netHTTPWith report)) w r now).resp.sentStatus r
          ((Logger render inner (real (netHTTPWith report)) w r now).clock - now)))) := by
  have hinv := exec_lrw_netHTTP_status report (inner r) w now hfresh honce
  have hresp := (Logger_resp_clock render inner (real (netHTTPWith report)) w r now).1
  have hcap : (Logger.captured inner (real (netHTTPWith report)) w r now).statusCode =
      (Logger render inner (real (netHTTPWith report)) w r now).resp.sentStatus := by
    rw [hresp]; exact hinv
  refine ⟨hcap, fun hret => ?_⟩
  rw [← hcap]
  exact Logger_last render inner (real (netHTTPWith report)) w r now hret

/-- C1, amended, on a fresh response of a healthy connection: at the handler
`notFound` the log line says 404 and 404 was sent; at the handler `writeOrError`,
whose write succeeds, the log line says 200 and 200 was sent. -/
theorem capture_fidelity_witness :
    (Response.new.wroteHeader = false ∧
      statusSetOnce (exec (lrw (real (netHTTPWith Response.report))) (notFound sampleRequest)
        (NewLoggingResponseWriter Response.new) 10).made = true ∧
      (Logger renderNs notFound (real (netHTTPWith Response.report)) Response.new sampleRequest
        10).resp.sentStatus = 404 ∧
      (Logger renderNs notFound (real (netHTTPWith Response.report)) Response.new sampleRequest
        10).trace.getLast? = some (Event.Log "[404] GET /index.html?v=1 10.0.0.1:5000 1500ns")) ∧
    (statusSetOnce (exec (lrw (real (netHTTPWith Response.report))) (writeOrError sampleRequest)
        (NewLoggingResponseWriter Response.new) 10).made = true ∧
      (Logger renderNs writeOrError (real (netHTTPWith Response.report)) Response.new
        sampleRequest 10).resp.sentStatus = 200 ∧
      (Logger renderNs writeOrError (real (netHTTPWith Response.report)) Response.new
        sampleRequest 10).trace.getLast? =
          some (Event.Log "[200] GET /index.html?v=1 10.0.0.1:5000 0ns")) :=
  ⟨⟨rfl, by decide, by decide,
      ((capture_fidelity Response.report renderNs notFound sampleRequest 10 Response.new rfl
        (by decide)).2 (by decide)).trans (by decide)⟩,
    ⟨by decide, by decide,
      ((capture_fidelity Response.report renderNs writeOrError sampleRequest 10 Response.new rfl
        (by decide)).2 (by decide)).trans (by decide)⟩⟩

/-- C2.  Default status: `NewLoggingResponseWriter(w)` captures 200, and when the
inner handler returns normally without having called `WriteHeader` on the
responder it was given, the log line of `Logger(inner)` carries the status 200. -/
theorem default_status {ρ : Type} (render : Int → String) (inner : Request → Handler)
    (R : ResponseWriter ρ) (w : ρ) (r : Request) (now : Int)
    (hnever : ∀ code, Event.WriteHeader code ∉
      (exec (lrw R) (inner r) (NewLoggingResponseWriter w) now).made)
    (hret : (Logger render inner R w r now).outcome = .returned) :
    (NewLoggingResponseWriter w).statusCode = 200 ∧
    (Logger render inner R w r now).trace.getLast? =
      some (Event.Log ("[200] " ++ r.Method ++ " " ++ r.RequestURI ++ " " ++ r.RemoteAddr ++ " " ++
        render ((Logger render inner R w r now).clock - now))) := by
  refine ⟨rfl, ?_⟩
  rw [Logger_last render inner R w r now hret]
  have hsc : (Logger.captured inner R w r now).statusCode = 200 := by
    unfold Logger.captured
    rw [exec_lrw_statusCode, headerCodes_eq_nil _ hnever]
    rfl
  rw [hsc, requestLine_eq]
  have h200 : toString (200 : Int) = "200" := by decide
  have hopen : "[" ++ "200" ++ "] " = "[200] " := by decide
  rw [h200, hopen]

/-- C2 at the handler `plain`, which only writes a body. -/
theorem default_status_witness :
    (∀ code, Event.WriteHeader code ∉
      (exec (lrw (real netHTTP)) (plain sampleRequest) (NewLoggingResponseWriter Response.new) 10).made) ∧
    (Logger renderNs plain (real netHTTP) Response.new sampleRequest 10).outcome = .returned ∧
    (NewLoggingResponseWriter Response.new).statusCode = 200 ∧
    (Logger renderNs plain (real netHTTP) Response.new sampleRequest 10).trace.getLast? =
      some (Event.Log ("[200] " ++ sampleRequest.Method ++ " " ++ sampleRequest.RequestURI ++ " " ++
        sampleRequest.RemoteAddr ++ " " ++
        renderNs ((Logger renderNs plain (real netHTTP) Response.new sampleRequest 10).clock - 10))) :=
  have hnever : ∀ code, Event.WriteHeader code ∉
      (exec (lrw (real netHTTP)) (plain sampleRequest) (NewLoggingResponseWriter Response.new) 10).made := by
    have hmade : (exec (lrw (real netHTTP)) (plain sampleRequest)
        (NewLoggingResponseWriter Response.new) 10).made = [Event.Write [104, 105]] := by decide
    intro code
    rw [hmade]
    simp
  ⟨hnever, by decide,
    default_status renderNs plain (real netHTTP) Response.new sampleRequest 10 hnever (by decide)⟩

/-- C3.  `LoggingResponseWriter.WriteHeader(code)` sets the captured status to
`code` and makes one `WriteHeader(code)` call on the embedded writer: the embedded
writer ends in the state, and the call yields the result, of that one call; on the
real writer exactly the event `WriteHeader code` is observed, with the code
unmodified; nothing else of the responder changes. -/
theorem writeHeader_frame {ρ σ : Type} (R : ResponseWriter ρ) (C : Conn σ) (code : Int)
    (l : LoggingResponseWriter ρ) (m : LoggingResponseWriter σ) :
    LoggingResponseWriter.WriteHeader R code l =
      ⟨⟨(R.WriteHeader code l.ResponseWriter).state, code⟩,
        (R.WriteHeader code l.ResponseWriter).calls,
        (R.WriteHeader code l.ResponseWriter).result⟩ ∧
    (LoggingResponseWriter.WriteHeader (real C) code m).state =
      ⟨(C.writeHeader code m.ResponseWriter).1, code⟩ ∧
    (LoggingResponseWriter.WriteHeader (real C) code m).calls = [Event.WriteHeader code] :=
  ⟨rfl, rfl, rfl⟩

/-- C4, counterexample.  The handler `streamOrFail` asks whether its responder is an
`http.Flusher`.  Called on the `net/http` writer directly it writes a body and
flushes (status 200); served through `Logger` the assertion fails on
`*LoggingResponseWriter` and the only call reaching the writer is
`WriteHeader(500)`. -/
theorem transparency_counterexample :
    (exec (real netHTTP) (streamOrFail sampleRequest) Response.new 0).trace =
      [Event.Write [104, 105], Event.Flush] ∧
    (exec (real netHTTP) (streamOrFail sampleRequest) Response.new 0).resp.sentStatus = 200 ∧
    (Logger renderNs streamOrFail (real netHTTP) Response.new sampleRequest 0).trace.filter
      Event.isCall = [Event.WriteHeader 500] ∧
    (Logger renderNs streamOrFail (real netHTTP) Response.new sampleRequest 0).resp.sentStatus =
      500 := by
  decide

/-- C4, amended.  Transparency for handlers that use their responder only through
the three methods of `http.ResponseWriter` (no type assertion on it): served by
`Logger(inner)`, the calls reaching the response writer, the writer afterwards, the
clock and the ending are those of `inner.ServeHTTP` called on the writer directly;
`Write` and `Header` on the responder are one call of the same method, with the
same arguments, on the embedded writer and leave the captured status unchanged. -/
theorem logger_transparent {ρ : Type} (render : Int → String) (inner : Request → Handler)
    (R : ResponseWriter ρ) (w : ρ) (r : Request) (now : Int) (b : Bytes)
    (upd : HeaderMap → HeaderMap) (l : LoggingResponseWriter ρ)
    (hio : (inner r).InterfaceOnly) :
    (Logger render inner R w r now).trace.filter Event.isCall =
      (exec R (inner r) w now).trace.filter Event.isCall ∧
    (Logger render inner R w r now).resp = (exec R (inner r) w now).resp ∧
    (Logger render inner R w r now).clock = (exec R (inner r) w now).clock ∧
    (Logger render inner R w r now).outcome = (exec R (inner r) w now).outcome ∧
    LoggingResponseWriter.Write R b l =
      ⟨⟨(R.Write b l.ResponseWriter).state, l.statusCode⟩, (R.Write b l.ResponseWriter).calls,
        (R.Write b l.ResponseWriter).result⟩ ∧
    LoggingResponseWriter.Header R upd l =
      ⟨⟨(R.Header upd l.ResponseWriter).state, l.statusCode⟩, (R.Header upd l.ResponseWriter).calls,
        (R.Header upd l.ResponseWriter).result⟩ := by
  have ht := exec_lrw_transparent R (inner r) w StatusOK now hio
  have htrace : (exec (lrw R) (inner r) (NewLoggingResponseWriter w) now).trace =
      (exec R (inner r) w now).trace := congrArg Exec.trace ht
  have hresp : (exec (lrw R) (inner r) (NewLoggingResponseWriter w) now).resp.ResponseWriter =
      (exec R (inner r) w now).resp := congrArg Exec.resp ht
  have hclock : (exec (lrw R) (inner r) (NewLoggingResponseWriter w) now).clock =
      (exec R (inner r) w now).clock := congrArg Exec.clock ht
  have hout : (exec (lrw R) (inner r) (NewLoggingResponseWriter w) now).outcome =
      (exec R (inner r) w now).outcome := congrArg Exec.outcome ht
  refine ⟨?_, ?_, ?_, ?_, rfl, rfl⟩
  · rw [filter_isCall_Logger, htrace]
  · rw [(Logger_resp_clock render inner R w r now).1, hresp]
  · rw [(Logger_resp_clock render inner R w r now).2, hclock]
  · rw [Logger_outcome, hout]

/-- C4, amended, at the handler `notFound`. -/
theorem logger_transparent_witness :
    (notFound sampleRequest).InterfaceOnly ∧
    (Logger renderNs notFound (real netHTTP) Response.new sampleRequest 10).trace.filter
        Event.isCall =
      (exec (real netHTTP) (notFound sampleRequest) Response.new 10).trace.filter Event.isCall ∧
    (Logger renderNs notFound (real netHTTP) Response.new sampleRequest 10).resp =
      (exec (real netHTTP) (notFound sampleRequest) Response.new 10).resp :=
  have hio : (notFound sampleRequest).InterfaceOnly := by simp [notFound, Handler.InterfaceOnly]
  have hall := logger_transparent renderNs notFound (real netHTTP) Response.new sampleRequest 10
    [] id (NewLoggingResponseWriter Response.new) hio
  ⟨hio, hall.1, hall.2.1⟩

/-- C5.  Ordering and count: when the inner handler returns normally, one call of
the handler returned by `Logger(inner)` returns normally and its effects are: the
call of `inner.ServeHTTP`, the effects of the inner handler, its return, and then
one log line, which is the last effect; `inner.ServeHTTP` is entered exactly once
and the log grows by exactly one line beyond what the inner handler logged. -/
theorem logger_order {σ : Type} (render : Int → String) (inner : Request → Handler)
    (C : Conn σ) (w : σ) (r : Request) (now : Int)
    (hret : (exec (lrw (real C)) (inner r) (NewLoggingResponseWriter w) now).outcome = .returned) :
    (Logger render inner (real C) w r now).outcome = .returned ∧
    (Logger render inner (real C) w r now).trace =
      Event.Enter r :: (exec (lrw (real C)) (inner r) (NewLoggingResponseWriter w) now).trace ++
        [Event.Leave,
          Event.Log (requestLine render (Logger.captured inner (real C) w r now).statusCode r
            ((Logger render inner (real C) w r now).clock - now))] ∧
    entries (Logger render inner (real C) w r now).trace = 1 ∧
    logged (Logger render inner (real C) w r now).trace =
      logged (exec (lrw (real C)) (inner r) (NewLoggingResponseWriter w) now).trace ++
        [requestLine render (Logger.captured inner (real C) w r now).statusCode r
          ((Logger render inner (real C) w r now).clock - now)] := by
  refine ⟨?_, ?_, ?_, ?_⟩
  · rw [Logger_outcome, hret]
  · rw [Logger_returned render inner (real C) w r now hret]; rfl
  · rw [Logger_returned render inner (real C) w r now hret]
    simp [entries, entries_append,
      (exec_lrw_real_calls C (inner r) (NewLoggingResponseWriter w) now).2.1]
  · rw [Logger_returned render inner (real C) w r now hret]
    simp [logged, logged_append, Logger.captured]

/-- C5 at the handler `plain`, which itself logs one line. -/
theorem logger_order_witness :
    (exec (lrw (real netHTTP)) (plain sampleRequest) (NewLoggingResponseWriter Response.new)
      10).outcome = .returned ∧
    (Logger renderNs plain (real netHTTP) Response.new sampleRequest 10).trace =
      [Event.Enter sampleRequest, Event.Write [104, 105], Event.Log "served", Event.Leave,
        Event.Log "[200] GET /index.html?v=1 10.0.0.1:5000 700ns"] ∧
    entries (Logger renderNs plain (real netHTTP) Response.new sampleRequest 10).trace = 1 :=
  have hall := logger_order renderNs plain netHTTP Response.new sampleRequest 10 (by decide)
  ⟨by decide, by decide, hall.2.2.1⟩

/-- C6.  Log line content: when the request is handled to normal completion, the
last effect of `Logger` is the log message made of `[`, the captured status in
decimal, `] `, then `r.Method`, `r.RequestURI`, `r.RemoteAddr` as they are in the
request and the rendered elapsed time (the clock at the end minus the clock at
the start), separated by single spaces. -/
theorem log_line_content {ρ : Type} (render : Int → String) (inner : Request → Handler)
    (R : ResponseWriter ρ) (w : ρ) (r : Request) (now : Int)
    (hret : (Logger render inner R w r now).outcome = .returned) :
    (Logger render inner R w r now).trace.getLast? =
      some (Event.Log ("[" ++ toString (Logger.captured inner R w r now).statusCode ++ "] " ++
        r.Method ++ " " ++ r.RequestURI ++ " " ++ r.RemoteAddr ++ " " ++
        render ((Logger render inner R w r now).clock - now))) := by
  rw [Logger_last render inner R w r now hret, requestLine_eq]

/-- C6 at the handler `notFound`: the line is
`[404] GET /index.html?v=1 10.0.0.1:5000 1500ns`. -/
theorem log_line_content_witness :
    (Logger renderNs notFound (real netHTTP) Response.new sampleRequest 10).outcome = .returned ∧
    (Logger renderNs notFound (real netHTTP) Response.new sampleRequest 10).trace.getLast? =
      some (Event.Log "[404] GET /index.html?v=1 10.0.0.1:5000 1500ns") :=
  ⟨by decide,
    (log_line_content renderNs notFound (real netHTTP) Response.new sampleRequest 10
      (by decide)).trans (by decide)⟩

/-- C9.  No recovery: when `inner.ServeHTTP` panics with value `v`, the handler
returned by `Logger(inner)` ends by the same panic with the same value, its effects
are the call of `inner.ServeHTTP` and the effects of the inner handler up to the
panic, and it adds no log line. -/
theorem logger_no_recovery {ρ : Type} (render : Int → String) (inner : Request → Handler)
    (R : ResponseWriter ρ) (w : ρ) (r : Request) (now : Int) (v : String)
    (hpanic : (exec (lrw R) (inner r) (NewLoggingResponseWriter w) now).outcome = .panicked v) :
    (Logger render inner R w r now).outcome = .panicked v ∧
    (Logger render inner R w r now).trace =
      Event.Enter r :: (exec (lrw R) (inner r) (NewLoggingResponseWriter w) now).trace ∧
    logged (Logger render inner R w r now).trace =
      logged (exec (lrw R) (inner r) (NewLoggingResponseWriter w) now).trace := by
  rw [Logger_panicked render inner R w r now v hpanic]
  exact ⟨rfl, rfl, by simp [logged]⟩

/-- C9 at the handler `failing`. -/
theorem logger_no_recovery_witness :
    (exec (lrw (real netHTTP)) (failing sampleRequest) (NewLoggingResponseWriter Response.new)
      10).outcome = .panicked "boom" ∧
    (Logger renderNs failing (real netHTTP) Response.new sampleRequest 10).outcome =
      .panicked "boom" ∧
    logged (Logger renderNs failing (real netHTTP) Response.new sampleRequest 10).trace =
      ["about to fail"] :=
  have hall := logger_no_recovery renderNs failing (real netHTTP) Response.new sampleRequest 10
    "boom" (by decide)
  ⟨by decide, hall.1, hall.2.2.trans (by decide)⟩

/-- C10.  Last write wins: when a handler made the `WriteHeader` calls with codes
`c1..cn` (`n ≥ 1`) on one responder, among any other calls, the captured status
afterwards is `cn`; the calls reaching the real writer are exactly the calls made,
in the same order, so all `n` codes are forwarded in order; and the captured status
is the same whatever status was held at the start. -/
theorem last_write_wins {σ : Type} (C : Conn σ) (h : Handler) (w : σ) (sc t : Int)
    (hne : headerCodes (exec (lrw (real C)) h ⟨w, sc⟩ t).made ≠ []) :
    (headerCodes (exec (lrw (real C)) h ⟨w, sc⟩ t).made).getLast? =
      some (exec (lrw (real C)) h ⟨w, sc⟩ t).resp.statusCode ∧
    (exec (lrw (real C)) h ⟨w, sc⟩ t).trace.filter Event.isCall =
      (exec (lrw (real C)) h ⟨w, sc⟩ t).made ∧
    headerCodes (exec (lrw (real C)) h ⟨w, sc⟩ t).trace =
      headerCodes (exec (lrw (real C)) h ⟨w, sc⟩ t).made ∧
    ∀ sc2 : Int, (exec (lrw (real C)) h ⟨w, sc2⟩ t).resp.statusCode =
      (exec (lrw (real C)) h ⟨w, sc⟩ t).resp.statusCode := by
  have hcalls := exec_lrw_real_calls C h ⟨w, sc⟩ t
  have hlast : ∀ s : Int, (headerCodes (exec (lrw (real C)) h ⟨w, sc⟩ t).made).getLast?.getD s =
      (headerCodes (exec (lrw (real C)) h ⟨w, sc⟩ t).made).getLast hne := by
    intro s
    rw [List.getLast?_eq_getLast _ hne]
    rfl
  refine ⟨?_, hcalls.1, hcalls.2.2, ?_⟩
  · rw [exec_lrw_statusCode, hlast sc]
    exact List.getLast?_eq_getLast _ hne
  · intro sc2
    have hu := congrArg Exec.made (exec_lrw_indep (real C) h w sc2 sc t)
    have hmade : (exec (lrw (real C)) h ⟨w, sc2⟩ t).made = (exec (lrw (real C)) h ⟨w, sc⟩ t).made :=
      hu
    rw [exec_lrw_statusCode, exec_lrw_statusCode, hmade]
    exact (hlast sc2).trans (hlast sc).symm

/-- C10 at the handler body `threeCodes` (codes 301, 404, 500) started with the
captured status 7: the captured status ends as 500 and the three codes reach the
writer in order. -/
theorem last_write_wins_witness :
    headerCodes (exec (lrw (real netHTTP)) threeCodes ⟨Response.new, 7⟩ 0).made = [301, 404, 500] ∧
    (exec (lrw (real netHTTP)) threeCodes ⟨Response.new, 7⟩ 0).resp.statusCode = 500 ∧
    headerCodes (exec (lrw (real netHTTP)) threeCodes ⟨Response.new, 7⟩ 0).trace =
      [301, 404, 500] :=
  have hne : headerCodes (exec (lrw (real netHTTP)) threeCodes ⟨Response.new, 7⟩ 0).made ≠ [] := by
    decide
  have hall := last_write_wins netHTTP threeCodes Response.new 7 0 hne
  ⟨by decide, Option.some.inj (hall.1.symm.trans (by decide)), hall.2.2.1.trans (by decide)⟩

/-- C7, counterexample.  Started with `-dir /srv/missing`, a path that names no
directory, `main` does not end: the path resolves, the confirmation line is logged
and `http.ListenAndServe` is called and keeps serving. -/
theorem missing_root_counterexample :
    missingRoot.isDir "/srv/missing" = false ∧
    main missingRoot =
      ⟨[Startup.Handle "/", Startup.Log "Serving /srv/missing on HTTP :8000\n",
          Startup.ListenAndServe ":8000"], .serving⟩ := by
  decide

/-- C7, amended.  When `filepath.Abs` cannot resolve the configured root directory,
`main` ends at once by `log.Fatal` with that error, with no effect before it:
nothing is registered or logged and `http.ListenAndServe` is not called.  Whether
the directory exists is not looked at: `main` does the same whatever `isDir`
answers. -/
theorem unresolvable_root_is_fatal (os : OS) (dir err : String)
    (hdir : os.dir = some dir) (habs : os.Abs dir = .error err) :
    main os = ⟨[], .fatal err⟩ ∧
    ∀ isDir : String → Bool, main { os with isDir := isDir } = main os := by
  exact ⟨main_of_abs_error os dir err hdir habs, fun _ => rfl⟩

/-- C7, amended, at the start `unresolvable`. -/
theorem unresolvable_root_is_fatal_witness :
    unresolvable.dir = some "site" ∧
    unresolvable.Abs "site" = .error "getwd: no such file or directory" ∧
    main unresolvable = ⟨[], .fatal "getwd: no such file or directory"⟩ :=
  ⟨by decide, rfl,
    (unresolvable_root_is_fatal unresolvable "site" "getwd: no such file or directory"
      (by decide) rfl).1⟩

/-- C8.  Startup outcome: `main` ends by `log.Fatal` exactly when `os.Getwd` fails,
or `filepath.Abs` of the configured directory fails, or `http.ListenAndServe`
returns an error; when `Getwd` or `Abs` fails `main` has no effect before the fatal
end (no confirmation line, no call of `ListenAndServe`); when both succeed the
effects are the registration of the handler, then one confirmation line
`Serving <absDir> on HTTP <addr>:<port>`, then the call of `ListenAndServe` with
`<addr>:<port>`. -/
theorem main_startup (os : OS) :
    ((∃ err, (main os).ending = .fatal err) ↔ os.GetwdFails ∨ os.AbsFails ∨ os.ListenFails) ∧
    (os.GetwdFails ∨ os.AbsFails → (main os).trace = []) ∧
    (∀ (wd absDir : String) (flags : Flags), os.Getwd = .ok wd → os.Args = .ok flags →
      os.Abs (flags.dir.getD wd) = .ok absDir →
      (main os).trace =
        [Startup.Handle "/",
          Startup.Log ("Serving " ++ absDir ++ " on HTTP " ++ flags.addr.getD "" ++ ":" ++
            toString (flags.port.getD 8000) ++ "\n"),
          Startup.ListenAndServe
            (flags.addr.getD "" ++ ":" ++ toString (flags.port.getD 8000))]) := by
  refine ⟨?_, ?_, fun wd absDir flags hwd hargs habs => (main_of_abs os wd absDir flags hwd hargs habs).1⟩
  · cases hwd : os.Getwd with
    | error e =>
      have hm : main os = ⟨[], .fatal e⟩ := by unfold main; simp only [hwd]
      rw [hm]
      exact ⟨fun _ => Or.inl ⟨e, hwd⟩, fun _ => ⟨e, rfl⟩⟩
    | ok wd =>
      have hg : ¬ os.GetwdFails := by rintro ⟨e, he⟩; rw [hwd] at he; cases he
      cases hargs : os.Args with
      | error code =>
        have hm : main os = ⟨[], .exit code⟩ := by unfold main; simp only [hwd, hargs]
        have ha : ¬ os.AbsFails := by
          rintro ⟨d, e, hd, _⟩; simp [OS.dir, hwd, hargs] at hd
        have hl : ¬ os.ListenFails := by
          rintro ⟨d, a, la, e, hd, _⟩; simp [OS.dir, hwd, hargs] at hd
        rw [hm]
        constructor
        · rintro ⟨e, he⟩; cases he
        · rintro (h | h | h)
          · exact absurd h hg
          · exact absurd h ha
          · exact absurd h hl
      | ok flags =>
        have hd : os.dir = some (flags.dir.getD wd) := by simp [OS.dir, hwd, hargs]
        have hla : os.listenAddr =
            some (flags.addr.getD "" ++ ":" ++ toString (flags.port.getD 8000)) := by
          simp [OS.listenAddr, hargs]
        cases habs : os.Abs (flags.dir.getD wd) with
        | error e =>
          have hm : main os = ⟨[], .fatal e⟩ := by unfold main; simp only [hwd, hargs, habs]
          rw [hm]
          exact ⟨fun _ => Or.inr (Or.inl ⟨_, e, hd, habs⟩), fun _ => ⟨e, rfl⟩⟩
        | ok absDir =>
          rw [(main_of_abs os wd absDir flags hwd hargs habs).2]
          constructor
          · rintro ⟨e, he⟩
            exact Or.inr (Or.inr ⟨_, absDir, _, e, hd, habs, hla, he⟩)
          · rintro (h | h | h)
            · exact absurd h hg
            · obtain ⟨d, e, hd2, he⟩ := h
              rw [hd] at hd2; cases hd2
              rw [habs] at he; cases he
            · obtain ⟨d, a, la, e, hd2, _, hla2, he⟩ := h
              rw [hla] at hla2; cases hla2
              exact ⟨e, he⟩
  · rintro (⟨e, he⟩ | ⟨d, e, hd, he⟩)
    · unfold main; simp only [he]
    · exact congrArg Started.trace (main_of_abs_error os d e hd he)

/-- C8 at the start `portInUse`: the working directory resolves, the confirmation
line is logged, `http.ListenAndServe` returns a bind error and `main` ends by
`log.Fatal`. -/
theorem main_startup_witness :
    portInUse.ListenFails ∧ (∃ err, (main portInUse).ending = .fatal err) ∧
    (main portInUse).trace =
      [Startup.Handle "/", Startup.Log "Serving /home/user on HTTP 127.0.0.1:8000\n",
        Startup.ListenAndServe "127.0.0.1:8000"] :=
  have hfails : portInUse.ListenFails :=
    ⟨"/home/user", "/home/user", "127.0.0.1:8000",
      "listen tcp 127.0.0.1:8000: bind: address already in use", by decide, rfl, by decide, rfl⟩
  ⟨hfails, (main_startup portInUse).1.mpr (Or.inr (Or.inr hfails)),
    ((main_startup portInUse).2.2 "/home/user" "/home/user" ⟨some "127.0.0.1", none, none⟩
      rfl rfl rfl).trans (by decide)⟩

end Serve
